import Mathlib

/-!
Verification development for the supply-chain graph analysis program.

The program's Python modules are shallowly embedded:
* Python strings are modelled as `List Char` and Python floats as exact
  rationals (`ℚ`);
* `graph_builder.py` (entity resolution, relation extraction, graph
  assembly) and `risk_modeler.py` (edge-weight model, deterministic risk
  propagation, Monte Carlo cascade simulation) are translated
  function-for-function;
* the standard-library routine `difflib.get_close_matches` used by
  `resolve_entity` is modelled by its reference implementation
  (Ratcliff-Obershelp matching with no junk elements, which is the
  behaviour for the short strings used here);
* `random.random()` draws are passed in explicitly as a stream of
  rationals, and a fallible computation (Python's `ZeroDivisionError`)
  is modelled with `Option`.
-/

/- Core marks the arithmetic of `Rat` irreducible, which blocks `decide` on
concrete rational computations; the kernel itself reduces these definitions
fine, so restore semireducibility for elaboration. -/
set_option maxRecDepth 8192
set_option allowUnsafeReducibility true
attribute [local semireducible] Rat.mul Rat.inv Rat.add Rat.sub Rat.neg Rat.div
  Rat.normalize

/-! ## Python string primitives (on `List Char`) -/

/-- Python whitespace for `str.strip` and the regex class `\s`
(ASCII range, which covers all strings in this program). -/
def pyIsSpace (c : Char) : Bool :=
  c = ' ' || c = '\t' || c = '\n' || c = '\x0d' || c = '\x0b' || c = '\x0c'

/-- Regex class `\w` on ASCII text: alphanumeric or underscore. -/
def isWordChar (c : Char) : Bool :=
  c.isAlphanum || c = '_'

/-- Python `str.lower()` (ASCII). -/
def pyLower (s : List Char) : List Char :=
  s.map Char.toLower

/-- Python `str.strip()`: drop whitespace from both ends. -/
def pyStrip (s : List Char) : List Char :=
  ((s.dropWhile pyIsSpace).reverse.dropWhile pyIsSpace).reverse

/-- `re.sub(r'[^\w\s]', '', s)`: remove every character that is neither a
word character nor whitespace. -/
def stripPunct (s : List Char) : List Char :=
  s.filter (fun c => isWordChar c || pyIsSpace c)

/-- Recursion worker for `pyReplace`, structurally recursive on a fuel
argument so that the kernel can evaluate it; a non-empty pattern consumes at
least one character per step, so any `fuel ≥ s.length` computes the full
replacement. -/
def pyReplaceAux (pat rep : List Char) : ℕ → List Char → List Char
  | _, [] => []
  | 0, s => s
  | fuel + 1, c :: rest =>
    if !pat.isEmpty && pat.isPrefixOf (c :: rest) then
      rep ++ pyReplaceAux pat rep fuel ((c :: rest).drop pat.length)
    else
      c :: pyReplaceAux pat rep fuel rest

/-- Python `s.replace(pat, rep)`: replace all occurrences, scanning left to
right, non-overlapping.  (All patterns in this program are non-empty; for an
empty pattern this returns `s` unchanged.) -/
def pyReplace (pat rep s : List Char) : List Char :=
  pyReplaceAux pat rep s.length s

/-- Python `needle in hay` on strings: contiguous substring test. -/
def pyIn (needle : List Char) : List Char → Bool
  | [] => needle.isEmpty
  | c :: rest => needle.isPrefixOf (c :: rest) || pyIn needle rest

/-- Python string literal as a `List Char`. -/
def pystr (s : String) : List Char := s.data

/-! ## risk_modeler.py -/

/-- Attribute dictionary of a graph node, as read by `risk_modeler.py`
(`data.get(key, default)` on a possibly missing key is modelled with
`Option.getD`). -/
structure NodeAttrs where
  risk_score : Option ℚ := none
  dependency_weight : Option ℚ := none
  inventory_buffer : Option ℚ := none
deriving DecidableEq

/-- `calculate_edge_weight(data)` from risk_modeler.py. -/
def calculate_edge_weight (data : NodeAttrs) : ℚ :=
  let dependency := data.dependency_weight.getD 1
  let buffer_months := data.inventory_buffer.getD 0
  let buffer_factor := min (buffer_months / 3) 1
  let elasticity : ℚ := if buffer_months = 0 then 1/10 else 0
  let propagation_weight := dependency * (1 - buffer_factor * (1/2) - elasticity * (1/10))
  max (1/10) (min propagation_weight 1)

/-- The `nx.MultiDiGraph` interface used by `risk_modeler.py`: a node list,
per-node attribute dictionaries, and a stable enumeration of all edges
(parallel edges recorded as repeated pairs).  Risk and failure maps are
modelled as total functions on names; the Python dicts keyed by `G.nodes`
agree with them on every node of the graph. -/
structure RiskGraph where
  nodes : List String
  attrs : String → NodeAttrs
  edges : List (String × String)

/-- Initialization `final_risk = {node: G.nodes[node].get('risk_score', 0.0)}`. -/
def riskInit (G : RiskGraph) : String → ℚ :=
  fun n => ((G.attrs n).risk_score).getD 0

/-- One edge relaxation `final_risk[v] = max(final_risk[v], final_risk[u] * w)`
with `w = calculate_edge_weight(G.nodes[u])`. -/
def relaxEdge (G : RiskGraph) (risk : String → ℚ) (e : String × String) : String → ℚ :=
  let w := calculate_edge_weight (G.attrs e.1)
  Function.update risk e.2 (max (risk e.2) (risk e.1 * w))

/-- One pass of the relaxation loop over the full edge enumeration. -/
def relaxPass (G : RiskGraph) (risk : String → ℚ) : String → ℚ :=
  G.edges.foldl (relaxEdge G) risk

/-- `simple_risk_propagation(G)` from risk_modeler.py: initialize with each
node's risk score and run exactly 5 relaxation passes. -/
def simple_risk_propagation (G : RiskGraph) : String → ℚ :=
  (relaxPass G)^[5] (riskInit G)

/-- `failure_prob_local` binning from `monte_carlo_disruption_simulation`:
0.20 if risk ≥ 0.9, else 0.10 if risk ≥ 0.7, else 0.02. -/
def failure_prob_local (G : RiskGraph) (n : String) : ℚ :=
  let risk := ((G.attrs n).risk_score).getD 0
  if 9/10 ≤ risk then 1/5
  else if 7/10 ≤ risk then 1/10
  else 1/50

/-- One edge of a cascade pass: `if is_failed[u]: is_failed[v] = True`. -/
def cascadeStep (failed : String → Bool) (e : String × String) : String → Bool :=
  if failed e.1 then Function.update failed e.2 true else failed

/-- One cascade pass over the full edge enumeration (keys and data of a
multi-edge are ignored by the loop body). -/
def cascadePass (edges : List (String × String)) (failed : String → Bool) : String → Bool :=
  edges.foldl cascadeStep failed

/-- The cascade portion of one Monte Carlo trial: exactly 3 passes. -/
def cascadePasses (edges : List (String × String)) (failed : String → Bool) : String → Bool :=
  (cascadePass edges)^[3] failed

/-- The per-node Bernoulli draw `random.random() < failure_prob_local[node]`,
with the uniform draw for each node supplied explicitly. -/
def localDraw (G : RiskGraph) (rand : String → ℚ) : String → Bool :=
  fun n => decide (rand n < failure_prob_local G n)

/-- One full Monte Carlo trial: independent local draws followed by the
3-pass cascade. -/
def mcTrial (G : RiskGraph) (rand : String → ℚ) : String → Bool :=
  cascadePasses G.edges (localDraw G rand)

/-- The `disruption_count` accumulation over all trials; trial `t` consumes
the draw stream `randoms t`. -/
def runCounts (G : RiskGraph) (iters : ℕ) (randoms : ℕ → String → ℚ) : String → ℕ :=
  (List.range iters).foldl
    (fun counts t =>
      let failed := mcTrial G (randoms t)
      fun n => counts n + (if failed n then 1 else 0))
    (fun _ => 0)

/-- Stable insertion step: `x` goes after every already-placed element that
the order keeps before it. -/
def sortInsert {α : Type} (before : α → α → Bool) (x : α) : List α → List α
  | [] => [x]
  | y :: ys => if before y x then y :: sortInsert before x ys else x :: y :: ys

/-- Python's stable `sorted(items, key=value, reverse=True)`, here as a stable
insertion sort: descending by the second component, ties keeping input order. -/
def pySortedDesc (l : List (String × ℚ)) : List (String × ℚ) :=
  l.foldl (fun acc x => sortInsert (fun y z => decide (z.2 ≤ y.2)) x acc) []

/-- Python integer division producing a float, `a / b`: raises
`ZeroDivisionError` when `b = 0` (modelled as `none`). -/
def pyDiv (a b : ℤ) : Option ℚ :=
  if b = 0 then none else some ((a : ℚ) / (b : ℚ))

/-- Return dictionary of `monte_carlo_disruption_simulation`. -/
structure MCResult where
  iterations : ℤ
  local_failure_probabilities : List (String × ℚ)
  disruption_probability_by_node : List (String × ℚ)
  final_product_disruption_prob : ℚ
deriving DecidableEq

/-- `monte_carlo_disruption_simulation(G, iterations)` from risk_modeler.py.
`range(iterations)` is empty for non-positive `iterations`
(`Int.toNat` sends negatives to 0); the final `count / iterations` division
raises `ZeroDivisionError` (modelled `none`) exactly when `iterations = 0`
and the graph has at least one node; the by-node map is sorted by
probability, descending (Python's stable sort with `reverse=True`). -/
def monte_carlo_disruption_simulation (G : RiskGraph) (iterations : ℤ)
    (randoms : ℕ → String → ℚ) : Option MCResult :=
  let fpl := G.nodes.map (fun n => (n, failure_prob_local G n))
  let counts := runCounts G iterations.toNat randoms
  match G.nodes.mapM (fun n => (pyDiv (counts n) iterations).map (fun q => (n, q))) with
  | none => none
  | some probs =>
    let sortedProbs := pySortedDesc probs
    some
      { iterations := iterations
        local_failure_probabilities := fpl
        disruption_probability_by_node := sortedProbs
        final_product_disruption_prob := (probs.lookup "Brand A Distribution Center").getD 0 }

/-! ## graph_builder.py: static tables -/

/-- The alias table `SIMILARITY_MAP` of graph_builder.py, in dict insertion
order (Python preserves it for iteration). -/
def SIMILARITY_MAP : List (List Char × List Char) :=
  [ (pystr "Fxncn 3", pystr "Foxconn Facility No. 3"),
    (pystr "Foxconn Unit 3", pystr "Foxconn Facility No. 3"),
    (pystr "Sunrise Textile India", pystr "Sunrise Textiles"),
    (pystr "Brand A DC", pystr "Brand A Distribution Center"),
    (pystr "OETX", pystr "OEKO-TEX"),
    (pystr "VN", pystr "Vietnam"),
    (pystr "FCN3", pystr "Foxconn Facility No. 3") ]

/-- `set(SIMILARITY_MAP.values())`: the distinct canonical names.  A Python
set iterates in an unspecified order; the fuzzy-match selection below breaks
ties totally (ratio, then string), so the order of this list does not affect
any result. -/
def canonical_names : List (List Char) :=
  [ pystr "Foxconn Facility No. 3",
    pystr "Sunrise Textiles",
    pystr "Brand A Distribution Center",
    pystr "OEKO-TEX",
    pystr "Vietnam" ]

/-- The trigger table `RELATION_MAP` of graph_builder.py. -/
def RELATION_MAP : List (List Char × List Char) :=
  [ (pystr "Supplies", pystr "SUPPLIES"),
    (pystr "Delivers", pystr "SUPPLIES"),
    (pystr "Ships materials", pystr "SUPPLIES"),
    (pystr "Produces", pystr "PRODUCES"),
    (pystr "assembly", pystr "FINAL_ASSEMBLY") ]

/-! ## difflib model

`resolve_entity` calls `difflib.get_close_matches(name, candidates, n=1,
cutoff=0.8)`.  This is the reference Ratcliff-Obershelp algorithm of the
Python standard library; with sequences shorter than 200 elements and no
junk predicate (the case here) it reduces to the plain longest-matching-
block recursion modelled below.  Ratios `2*M/T` are kept as the exact pair
`(2*M, T)` of naturals and compared by cross-multiplication, which agrees
with the float comparisons for the short strings involved. -/

/-- `SequenceMatcher.find_longest_match` on `a[alo:ahi]` versus `b[blo:bhi]`
with no junk: the dynamic-programming pass over rows `i`, keeping, among all
maximal matching blocks, the one starting earliest in `a` and then earliest
in `b`.  Returns `(besti, bestj, bestsize)`.  (The row map `j2len` of the
Python original is modelled as a total function that is zero off its keys.) -/
def findLongestMatch (a b : List Char) (alo ahi blo bhi : ℕ) : ℕ × ℕ × ℕ :=
  ((List.range' alo (ahi - alo)).foldl
    (fun (st : (ℕ → ℕ) × (ℕ × ℕ × ℕ)) i =>
      (List.range' blo (bhi - blo)).foldl
        (fun (st2 : (ℕ → ℕ) × (ℕ × ℕ × ℕ)) j =>
          if b.getD j ' ' = a.getD i ' ' then
            let k := (if j = 0 then 0 else st.1 (j - 1)) + 1
            ( Function.update st2.1 j k,
              if st2.2.2.2 < k then (i + 1 - k, j + 1 - k, k) else st2.2 )
          else st2)
        ((fun _ => 0), st.2))
    ((fun _ => 0), (alo, blo, 0))).2

/-- Total size `M` of the matching blocks of `get_matching_blocks`:
recursively split around the longest match.  Structurally recursive on a
fuel argument so the kernel can evaluate it; every split with a non-empty
match shrinks the `a`-interval, so `fuel ≥ ahi - alo` computes the full sum
(an empty interval or exhausted fuel finds no match and contributes 0). -/
def matchTotalAux (a b : List Char) : ℕ → ℕ → ℕ → ℕ → ℕ → ℕ
  | 0, _, _, _, _ => 0
  | fuel + 1, alo, ahi, blo, bhi =>
    match findLongestMatch a b alo ahi blo bhi with
    | (i, j, k) =>
      if 0 < k then
        matchTotalAux a b fuel alo i blo j + k + matchTotalAux a b fuel (i + k) ahi (j + k) bhi
      else 0

/-- `_calculate_ratio(m, t) >= 0.8`: `2*m/t ≥ 4/5` by cross-multiplication,
and 1.0 ≥ 0.8 when `t = 0`. -/
def ratioGEcutoff (m t : ℕ) : Bool :=
  if t = 0 then true else decide (4 * t ≤ 5 * (2 * m))

/-- `quick_ratio`'s match count: per-character multiset intersection size. -/
def quickMatches (a b : List Char) : ℕ :=
  a.dedup.foldl (fun acc c => acc + min (a.count c) (b.count c)) 0

/-- The `M` of `ratio()` for the full sequences. -/
def ratioM (a b : List Char) : ℕ :=
  matchTotalAux a b a.length 0 a.length 0 b.length

/-- The chained cutoff test of `get_close_matches`:
`real_quick_ratio() >= cutoff and quick_ratio() >= cutoff and ratio() >= cutoff`
(each quick ratio is an upper bound of the next, so this equals the final
test; all three are modelled for fidelity). -/
def passesCutoff (x word : List Char) : Bool :=
  let t := x.length + word.length
  ratioGEcutoff (min x.length word.length) t
    && ratioGEcutoff (quickMatches x word) t
    && ratioGEcutoff (ratioM x word) t

/-- Strict fraction comparison `p.1/p.2 > q.1/q.2` by cross-multiplication
(a zero denominator stands for the ratio 1.0 of two empty sequences and
cannot collide with a nonzero one on the candidate lists used here). -/
def ratioGtPair (p q : ℕ × ℕ) : Bool :=
  decide (p.2 * q.1 < q.2 * p.1)

/-- Fraction equality by cross-multiplication. -/
def ratioEqPair (p q : ℕ × ℕ) : Bool :=
  decide (q.2 * p.1 = p.2 * q.1)

/-- Python string comparison `x > y`: lexicographic on code points. -/
def pyStrGt : List Char → List Char → Bool
  | [], _ => false
  | _ :: _, [] => true
  | x :: xs, y :: ys =>
    if x.toNat = y.toNat then pyStrGt xs ys else decide (y.toNat < x.toNat)

/-- `difflib.get_close_matches(word, cands, n=1, cutoff=0.8)`, returning the
single best candidate if any passes the cutoff.  `heapq.nlargest` compares
the pairs `(ratio, candidate)` lexicographically, so the selection is the
argmax by ratio with ties broken towards the larger string — independent of
the candidate order. -/
def gcmStep (word : List Char) (best : Option ((ℕ × ℕ) × List Char)) (x : List Char) :
    Option ((ℕ × ℕ) × List Char) :=
  if passesCutoff x word then
    let r := (2 * ratioM x word, x.length + word.length)
    match best with
    | none => some (r, x)
    | some (rb, xb) =>
      if ratioGtPair r rb || (ratioEqPair r rb && pyStrGt x xb) then
        some (r, x)
      else
        some (rb, xb)
  else best

def get_close_match1 (word : List Char) (cands : List (List Char)) : Option (List Char) :=
  (cands.foldl (gcmStep word) none).map (fun p => p.2)

/-! ## graph_builder.py: entity resolution -/

/-- `_preprocess_name(name)`: lowercase, strip, remove punctuation, then
substitute every alias (lowercased) by its canonical expansion (lowercased),
in table order. -/
def _preprocess_name (name : List Char) : List Char :=
  SIMILARITY_MAP.foldl
    (fun n p => pyReplace (pyLower p.1) (pyLower p.2) n)
    (stripPunct (pyStrip (pyLower name)))

/-- `resolve_entity(name)` from graph_builder.py: first alias whose name
matches exactly or whose preprocessed form contains the preprocessed name,
then the fuzzy fallback, then the stripped name itself. -/
def resolve_entity (name : List Char) : List Char :=
  let processed_name := _preprocess_name name
  match SIMILARITY_MAP.find?
      (fun p => pyStrip name == p.1 || pyIn processed_name (_preprocess_name p.1)) with
  | some p => p.2
  | none =>
    match get_close_match1 (pyStrip name) canonical_names with
    | some m => m
    | none => pyStrip name

/-! ## graph_builder.py: relation extraction

`extract_relations` uses two fixed regular expressions; each is modelled by
a dedicated matcher with Python's leftmost-match, greedy/lazy and
backtracking semantics for exactly that pattern. -/

/-- The character class `[\w\s.]` of the object-phrase capture. -/
def classWSD (c : Char) : Bool :=
  isWordChar c || pyIsSpace c || c = '.'

/-- Attempt `(to|for)\s+([\w\s.]+)` anchored at the start of `rest`, for one
given keyword: require the keyword, at least one whitespace, then a
greedy non-empty run of `[\w\s.]`.  The first `\s+` is greedy and gives one
whitespace back to the capture group when the run after the whitespace
starts with a character outside the class. -/
def tryKeywordAt (kw rest : List Char) : Option (List Char) :=
  if kw.isPrefixOf rest then
    let after := rest.drop kw.length
    let w := (after.takeWhile pyIsSpace).length
    if w = 0 then none
    else
      let g := (after.drop w).takeWhile classWSD
      if !g.isEmpty then some g
      else if 2 ≤ w then some [after.getD (w - 1) ' ']
      else none
  else none

/-- `re.search(r'(to|for)\s+([\w\s\.]+)', text)`: leftmost match, trying the
alternatives in order at each position; returns capture group 2. -/
def matchToFor : List Char → Option (List Char)
  | [] => none
  | c :: rest =>
    match tryKeywordAt (pystr "to") (c :: rest) with
    | some g => some g
    | none =>
      match tryKeywordAt (pystr "for") (c :: rest) with
      | some g => some g
      | none => matchToFor rest

/-- Does `\s+(to|for)` match at the start of `rest`?  The keywords start
with a non-whitespace character, so the greedy `\s+` must consume the whole
whitespace run. -/
def wsThenKw (rest : List Char) : Bool :=
  let w := (rest.takeWhile pyIsSpace).length
  decide (1 ≤ w)
    && (List.isPrefixOf (pystr "to") (rest.drop w) || List.isPrefixOf (pystr "for") (rest.drop w))

/-- The lazy group `(.*?)` before `\s+(to|for)`: the shortest prefix of
`rem` (not crossing a newline, which `.` does not match) whose remainder
matches `\s+(to|for)`; returns that prefix. -/
def lazyGroupTo (acc rem : List Char) : Option (List Char) :=
  if wsThenKw rem then some acc.reverse
  else
    match rem with
    | [] => none
    | c :: t => if c = '\n' then none else lazyGroupTo (c :: acc) t

/-- Backtracking over the first `\s+` of the material pattern: try consuming
`s1` whitespace characters (from the maximal run downwards), then the lazy
group.  `after` is the text right after the verb. -/
def tryMaterialSplits (after : List Char) : ℕ → Option (List Char)
  | 0 => none
  | s1 + 1 =>
    match lazyGroupTo [] (after.drop (s1 + 1)) with
    | some g => some g
    | none => tryMaterialSplits after s1

/-- Attempt `(supplies|delivers|ships|produces)\s+(.*?)\s+(to|for)` anchored
at the start of `rest`; returns capture group 2.  At most one verb can be a
prefix at a given position, and the first greedy `\s+` prefers the longest
whitespace run, shrinking only when no completion exists. -/
def tryMaterialAt (rest : List Char) : Option (List Char) :=
  match [pystr "supplies", pystr "delivers", pystr "ships", pystr "produces"].find?
      (fun v => v.isPrefixOf rest) with
  | none => none
  | some v =>
    let after := rest.drop v.length
    let w := (after.takeWhile pyIsSpace).length
    tryMaterialSplits after w

/-- `re.search(r'(supplies|delivers|ships|produces)\s+(.*?)\s+(to|for)',
text)`: leftmost match over starting positions; returns capture group 2. -/
def matchMaterial : List Char → Option (List Char)
  | [] => none
  | c :: rest =>
    match tryMaterialAt (c :: rest) with
    | some g => some g
    | none => matchMaterial rest

/-- Python `s.split('.')[0]`: the prefix before the first dot. -/
def splitDotHead (s : List Char) : List Char :=
  s.takeWhile (fun c => c ≠ '.')

/-- `extract_relations(text)` from graph_builder.py. -/
def extract_relations (text : List Char) :
    Option (List Char × List Char × List Char) :=
  let text_lower := pyLower text
  match matchToFor text_lower with
  | some rawGroup =>
    let raw_object_name := pyStrip rawGroup
    let target_name := resolve_entity (pyStrip (splitDotHead raw_object_name))
    let rel_type :=
      match RELATION_MAP.find? (fun p => pyIn (pyLower p.1) text_lower) with
      | some p => p.2
      | none => pystr "UNKNOWN_RELATION"
    let material :=
      match matchMaterial text_lower with
      | some g =>
        if g.isEmpty then pystr "UNKNOWN MATERIAL"
        else if (pyStrip g).isEmpty then pystr "UNKNOWN MATERIAL"
        else pyStrip g
      | none => pystr "UNKNOWN MATERIAL"
    some (rel_type, target_name, material)
  | none =>
    if pyIn (pystr "final product assembly") text_lower then none else none

/-! ## graph_builder.py: graph assembly -/

/-- Node attribute dictionary created by `_initialize_node_attributes` and
mutated by `build_graph` (the `certifications` Python set is a
duplicate-free list; the final set-to-list conversion of `build_graph` is
the identity under this representation). -/
structure NodeData where
  label : List Char
  id : List Char
  name : List Char
  certifications : List (List Char)
  tier : Option (List Char)
  region : Option (List Char)
  risk_score : ℚ
  dependency_weight : ℚ
  inventory_buffer : ℚ
deriving DecidableEq

/-- `_initialize_node_attributes(node_id, canonical_name)`. -/
def _initialize_node_attributes (node_id : ℕ) (canonical_name : List Char) : NodeData :=
  { label := pystr "Facility"
    id := pystr "fac_" ++ (Nat.repr node_id).data
    name := canonical_name
    certifications := []
    tier := none
    region := none
    risk_score := 0
    dependency_weight := 1
    inventory_buffer := 0 }

/-- A raw input record: each Python dict key that `build_graph` reads,
`none` when the key is absent (`dict.get` returns `None`). -/
structure RawRecord where
  facility_name : Option (List Char) := none
  facility_key : Option (List Char) := none
  certification : Option (List Char) := none
  tier : Option (List Char) := none
  region : Option (List Char) := none
  risk_score : Option ℚ := none
  dependency_weight : Option ℚ := none
  buffer : Option ℚ := none
  relation_text : Option (List Char) := none
deriving DecidableEq

/-- The `nx.MultiDiGraph` under construction, together with the
`facility_nodes` id registry: nodes as an association list keyed by
canonical name, edges as (source, target, relation, material, weight) in
insertion order, parallels kept. -/
structure BGraph where
  nodes : List (List Char × NodeData)
  facility_nodes : List (List Char)
  edges : List (List Char × List Char × List Char × List Char × ℚ)
deriving DecidableEq

/-- Python truthiness of an optional string: `None` and `""` are falsy. -/
def truthyStr : Option (List Char) → Bool
  | none => false
  | some s => !s.isEmpty

/-- Python `set.add`: insert if not a member (order of the underlying set is
not semantically significant; insertion order is used here). -/
def setAdd (l : List (List Char)) (x : List Char) : List (List Char) :=
  if x ∈ l then l else l ++ [x]

/-- Node creation: `node_id_counter = len(facility_nodes) + 1`, register the
name, and `G.add_node(canonical_name, **attributes)`. -/
def addNewNode (G : BGraph) (canonical : List Char) : BGraph :=
  let node_id := G.facility_nodes.length + 1
  { G with
    nodes := G.nodes ++ [(canonical, _initialize_node_attributes node_id canonical)]
    facility_nodes := G.facility_nodes ++ [canonical] }

/-- In-place mutation of one node's attribute dictionary. -/
def updateNode (G : BGraph) (name : List Char) (f : NodeData → NodeData) : BGraph :=
  { G with nodes := G.nodes.map (fun p => if p.1 = name then (p.1, f p.2) else p) }

/-- The loop body of `build_graph` for one raw record: resolve the subject
name (`facility_name or facility_key`, then a truthiness test), create the
node if unseen, merge attributes, and extract/insert a relation edge. -/
def processItem (G : BGraph) (item : RawRecord) : BGraph :=
  let raw_name := if truthyStr item.facility_name then item.facility_name else item.facility_key
  match raw_name with
  | none => G
  | some nm =>
    if nm.isEmpty then G
    else
      let canonical_name := resolve_entity nm
      let G1 := if (G.nodes.lookup canonical_name).isNone then addNewNode G canonical_name else G
      let G2 :=
        match item.certification with
        | some c =>
          if !c.isEmpty then
            updateNode G1 canonical_name
              (fun d => { d with certifications := setAdd d.certifications (resolve_entity c) })
          else G1
        | none => G1
      let G3 :=
        match item.tier with
        | some t => if !t.isEmpty then updateNode G2 canonical_name (fun d => { d with tier := some t }) else G2
        | none => G2
      let G4 :=
        match item.region with
        | some r =>
          if !r.isEmpty then
            updateNode G3 canonical_name (fun d => { d with region := some (resolve_entity r) })
          else G3
        | none => G3
      let G5 :=
        match item.risk_score with
        | some v => updateNode G4 canonical_name (fun d => { d with risk_score := v })
        | none => G4
      let G6 :=
        match item.dependency_weight with
        | some v => updateNode G5 canonical_name (fun d => { d with dependency_weight := v })
        | none => G5
      let G7 :=
        match item.buffer with
        | some v => updateNode G6 canonical_name (fun d => { d with inventory_buffer := v })
        | none => G6
      match item.relation_text with
      | none => G7
      | some t =>
        if t.isEmpty then G7
        else
          match extract_relations t with
          | none => G7
          | some (rel_type, target_name, material) =>
            let resolved_target_name := resolve_entity target_name
            let G8 :=
              if (G7.nodes.lookup resolved_target_name).isNone then
                addNewNode G7 resolved_target_name
              else G7
            { G8 with
              edges := G8.edges ++ [(canonical_name, resolved_target_name, rel_type, material, 1)] }

/-- `build_graph(raw_data)` from graph_builder.py. -/
def build_graph (raw_data : List RawRecord) : BGraph :=
  raw_data.foldl processItem { nodes := [], facility_nodes := [], edges := [] }

/-! ## Spec-side definition and concrete fixtures -/

/-- The edge-weight formula as the SPEC states it (§4.3), for comparison
with `calculate_edge_weight`:
clamp of `dependency_weight * (1 - min(inventory_buffer/3, 1.0)*0.5 -
(0.1 if inventory_buffer == 0 else 0.0)*0.1)` to `[0.1, 1.0]`. -/
def edgeWeightSpecFormula (dw ib : ℚ) : ℚ :=
  max (1/10)
    (min (dw * (1 - min (ib / 3) 1 * (1/2) - (if ib = 0 then 1/10 else 0) * (1/10))) 1)

/-- Node A of the spec's propagation-arithmetic scenario:
risk_score 0.8, dependency_weight 1.0, inventory_buffer 0. -/
def attrsA : NodeAttrs :=
  { risk_score := some (4/5), dependency_weight := some 1, inventory_buffer := some 0 }

/-- The two-node scenario graph: A → B, with B at risk_score 0.3. -/
def G_scenarioAB : RiskGraph :=
  { nodes := ["A", "B"]
    attrs := fun n =>
      if n = "A" then attrsA
      else { risk_score := some (3/10), dependency_weight := some 1, inventory_buffer := some 0 }
    edges := [("A", "B")] }

/-- A one-node, zero-edge graph for exercising the simulator's iteration
handling. -/
def G_oneNode : RiskGraph :=
  { nodes := ["A"], attrs := fun _ => {}, edges := [] }

/-- Witness graph for the cascade properties. -/
def G_cascadeW : RiskGraph :=
  { nodes := ["A", "B"]
    attrs := fun _ => { risk_score := some 1, dependency_weight := some 1, inventory_buffer := some 0 }
    edges := [("A", "B")] }

/-- Same nodes and edges as `G_cascadeW`, same risk scores, but different
dependency weights and inventory buffers (hence different edge weights). -/
def G_cascadeW' : RiskGraph :=
  { nodes := ["A", "B"]
    attrs := fun _ =>
      { risk_score := some 1, dependency_weight := some (1/2), inventory_buffer := some 5 }
    edges := [("A", "B")] }

/-- A raw record with no facility_name and an empty (falsy) facility_key,
but carrying extractable relation text. -/
def rNoSubject : RawRecord :=
  { facility_key := some []
    relation_text := some (pystr "Supplies cotton to Brand A DC") }

/-! ## Helper lemmas -/

theorem relaxEdge_le (G : RiskGraph) (risk : String → ℚ) (e : String × String) (v : String) :
    risk v ≤ relaxEdge G risk e v := by
  unfold relaxEdge
  rw [Function.update_apply]
  split
  · next h => exact h ▸ le_max_left _ _
  · exact le_rfl

theorem relaxFoldl_le (G : RiskGraph) (es : List (String × String)) :
    ∀ (risk : String → ℚ) (v : String), risk v ≤ es.foldl (relaxEdge G) risk v := by
  induction es with
  | nil => exact fun risk v => le_rfl
  | cons e es ih =>
    intro risk v
    exact le_trans (relaxEdge_le G risk e v) (ih (relaxEdge G risk e) v)

theorem relaxIterate_le (G : RiskGraph) (n : ℕ) :
    ∀ (risk : String → ℚ) (v : String), risk v ≤ (relaxPass G)^[n] risk v := by
  induction n with
  | zero => exact fun risk v => le_rfl
  | succ n ih =>
    intro risk v
    rw [Function.iterate_succ_apply]
    exact le_trans (relaxFoldl_le G G.edges risk v) (ih (relaxPass G risk) v)

theorem cascadeStep_mono (failed : String → Bool) (e : String × String) (x : String)
    (hx : failed x = true) : cascadeStep failed e x = true := by
  unfold cascadeStep
  split
  · rw [Function.update_apply]
    split
    · rfl
    · exact hx
  · exact hx

theorem cascadeFoldl_mono (es : List (String × String)) :
    ∀ (failed : String → Bool) (x : String), failed x = true →
      es.foldl cascadeStep failed x = true := by
  induction es with
  | nil => exact fun failed x hx => hx
  | cons e es ih =>
    intro failed x hx
    exact ih (cascadeStep failed e) x (cascadeStep_mono failed e x hx)

theorem cascadePasses_mono (es : List (String × String)) (failed : String → Bool)
    (x : String) (hx : failed x = true) : cascadePasses es failed x = true := by
  unfold cascadePasses
  have h3 : ∀ (n : ℕ) (f : String → Bool), f x = true → (cascadePass es)^[n] f x = true := by
    intro n
    induction n with
    | zero => exact fun f hf => hf
    | succ n ih =>
      intro f hf
      rw [Function.iterate_succ_apply]
      exact ih (cascadePass es f) (cascadeFoldl_mono es f x hf)
  exact h3 3 failed hx

theorem gcmFoldl_mem (word : List Char) :
    ∀ (cands : List (List Char)) (acc : Option ((ℕ × ℕ) × List Char))
      (p : (ℕ × ℕ) × List Char),
      cands.foldl (gcmStep word) acc = some p → acc = some p ∨ p.2 ∈ cands := by
  intro cands
  induction cands with
  | nil => exact fun acc p h => Or.inl h
  | cons x cs ih =>
    intro acc p h
    rw [List.foldl_cons] at h
    rcases ih (gcmStep word acc x) p h with h1 | h2
    · unfold gcmStep at h1
      split at h1
      · cases acc with
        | none =>
          simp only [Option.some.injEq] at h1
          exact Or.inr (h1 ▸ List.mem_cons_self x cs)
        | some q =>
          obtain ⟨rb, xb⟩ := q
          simp only at h1
          split at h1
          · simp only [Option.some.injEq] at h1
            exact Or.inr (h1 ▸ List.mem_cons_self x cs)
          · exact Or.inl h1
      · exact Or.inl h1
    · exact Or.inr (List.mem_cons_of_mem x h2)

theorem get_close_match1_mem (word : List Char) (cands : List (List Char)) (m : List Char)
    (h : get_close_match1 word cands = some m) : m ∈ cands := by
  unfold get_close_match1 at h
  rw [Option.map_eq_some'] at h
  obtain ⟨p, hp, hm⟩ := h
  rcases gcmFoldl_mem word cands none p hp with h1 | h2
  · exact absurd h1 (by simp)
  · exact hm ▸ h2

theorem head?_dropWhile_not (p : Char → Bool) :
    ∀ (l : List Char) (c : Char), (l.dropWhile p).head? = some c → p c = false := by
  intro l
  induction l with
  | nil => intro c h; simp at h
  | cons a l ih =>
    intro c h
    rw [List.dropWhile_cons] at h
    split at h
    · exact ih c h
    · next ha =>
      simp only [List.head?_cons, Option.some.injEq] at h
      rw [← h]
      exact Bool.of_not_eq_true ha

theorem dropWhile_of_head_not (p : Char → Bool) (l : List Char)
    (h : ∀ c, l.head? = some c → p c = false) : l.dropWhile p = l := by
  cases l with
  | nil => rfl
  | cons a l =>
    rw [List.dropWhile_cons, h a rfl]
    simp

theorem getLast?_dropWhile (p : Char → Bool) :
    ∀ (l : List Char), l.dropWhile p ≠ [] → (l.dropWhile p).getLast? = l.getLast? := by
  intro l
  induction l with
  | nil => intro h; simp at h
  | cons a l ih =>
    intro h
    rw [List.dropWhile_cons] at h ⊢
    split
    · next ha =>
      rw [if_pos ha] at h
      rw [ih h]
      cases l with
      | nil => exact absurd (by rw [List.dropWhile_nil]) h
      | cons b l => rfl
    · rfl

theorem pyStrip_no_space_ends (l : List Char)
    (hh : ∀ c, l.head? = some c → pyIsSpace c = false)
    (hl : ∀ c, l.getLast? = some c → pyIsSpace c = false) :
    pyStrip l = l := by
  unfold pyStrip
  rw [dropWhile_of_head_not pyIsSpace l hh,
    dropWhile_of_head_not pyIsSpace l.reverse
      (fun c hc => hl c (by rwa [List.head?_reverse] at hc)),
    List.reverse_reverse]

theorem pyStrip_idempotent (s : List Char) : pyStrip (pyStrip s) = pyStrip s := by
  by_cases hr : pyStrip s = []
  · rw [hr]
    rfl
  · apply pyStrip_no_space_ends
    · intro c hc
      unfold pyStrip at hc hr
      rw [List.head?_reverse] at hc
      have hu : (s.dropWhile pyIsSpace).reverse.dropWhile pyIsSpace ≠ [] := by
        intro h0
        exact hr (by rw [h0]; rfl)
      rw [getLast?_dropWhile pyIsSpace _ hu, List.getLast?_reverse] at hc
      exact head?_dropWhile_not pyIsSpace s c hc
    · intro c hc
      unfold pyStrip at hc
      rw [List.getLast?_reverse] at hc
      exact head?_dropWhile_not pyIsSpace _ c hc

theorem pyStrip_eq_nil_iff (s : List Char) :
    pyStrip s = [] ↔ ∀ c ∈ s, pyIsSpace c = true := by
  unfold pyStrip
  constructor
  · intro h c hc
    rw [List.reverse_eq_nil_iff, List.dropWhile_eq_nil_iff] at h
    rcases List.mem_append.mp
        ((List.takeWhile_append_dropWhile pyIsSpace s).symm ▸ hc : c ∈ _) with h1 | h2
    · exact List.mem_takeWhile_imp h1
    · exact h c (by rw [List.mem_reverse]; exact h2)
  · intro h
    have : s.dropWhile pyIsSpace = [] := by
      rw [List.dropWhile_eq_nil_iff]
      exact h
    rw [this]
    rfl

theorem pyLower_of_all_space (s : List Char) (h : ∀ c ∈ s, pyIsSpace c = true) :
    pyLower s = s := by
  unfold pyLower
  have : ∀ c ∈ s, Char.toLower c = id c := by
    intro c hc
    have hsp := h c hc
    simp only [pyIsSpace, Bool.or_eq_true, decide_eq_true_eq] at hsp
    rcases hsp with ((((h1 | h2) | h3) | h4) | h5) | h6 <;> subst_vars <;> decide
  rw [List.map_congr_left this, List.map_id]

theorem preprocess_nil_of_strip_nil (s : List Char) (h : pyStrip s = []) :
    _preprocess_name s = [] := by
  have hall := (pyStrip_eq_nil_iff s).mp h
  have hlow : pyLower s = s := pyLower_of_all_space s hall
  unfold _preprocess_name
  rw [hlow, h]
  rfl

theorem processItem_no_subject (G : BGraph) (r : RawRecord)
    (h1 : truthyStr r.facility_name = false) (h2 : truthyStr r.facility_key = false) :
    processItem G r = G := by
  unfold processItem
  rw [h1]
  simp only [Bool.false_eq_true, if_false]
  cases hk : r.facility_key with
  | none => rfl
  | some nm =>
    rw [hk] at h2
    unfold truthyStr at h2
    simp only [Bool.not_eq_false'] at h2
    simp only [h2, if_true]

/-! ## Claim theorems -/

/-- C1 counterexample: for node A with risk_score 0.8, dependency_weight
1.0 and inventory_buffer 0, `calculate_edge_weight` does NOT return 0.792
(= 99/125), and on the edge A→B with B.risk_score 0.3 the propagated risk of
B is NOT 0.6336 (= 396/625). -/
theorem edge_weight_scenario_claim_false :
    calculate_edge_weight attrsA ≠ 99/125 ∧
      simple_risk_propagation G_scenarioAB "B" ≠ 396/625 := by
  decide

/-- C1 (amended): `calculate_edge_weight` on A's attributes returns
1.0 × (1 − 0 − 0.01) = 0.99 (the node's dependency_weight is the factor,
not its risk_score), and the propagator yields
risk[B] = max(0.3, 0.8 × 0.99) = 0.792 (= 99/125). -/
theorem edge_weight_scenario_amended :
    calculate_edge_weight attrsA = 99/100 ∧
      simple_risk_propagation G_scenarioAB "B" = max (3/10) ((4/5) * (99/100)) ∧
      simple_risk_propagation G_scenarioAB "B" = 99/125 := by
  decide

/-- C2: for every attribute mapping (any risk_score, dependency_weight and
inventory_buffer, each possibly absent), `calculate_edge_weight` returns the
clamp to [0.1, 1.0] of the spec's formula applied to the defaulted
dependency_weight and inventory_buffer, and the result always lies in
[0.1, 1.0]. -/
theorem calculate_edge_weight_spec_and_bounds (data : NodeAttrs) :
    calculate_edge_weight data =
        edgeWeightSpecFormula (data.dependency_weight.getD 1) (data.inventory_buffer.getD 0)
      ∧ 1/10 ≤ calculate_edge_weight data
      ∧ calculate_edge_weight data ≤ 1 := by
  refine ⟨rfl, le_max_left _ _, ?_⟩
  unfold calculate_edge_weight
  exact max_le (by norm_num) (min_le_right _ 1)

/-- C2 witness at a concrete attribute mapping. -/
theorem calculate_edge_weight_spec_and_bounds_witness :
    calculate_edge_weight attrsA = edgeWeightSpecFormula 1 0
      ∧ 1/10 ≤ calculate_edge_weight attrsA
      ∧ calculate_edge_weight attrsA ≤ 1 :=
  calculate_edge_weight_spec_and_bounds attrsA

/-- C3: for every graph and every node, the risk value after
`simple_risk_propagation` (5 max-relaxation passes starting from the nodes'
risk scores) is at least the node's initial risk score. -/
theorem simple_risk_propagation_monotone (G : RiskGraph) (v : String) :
    riskInit G v ≤ simple_risk_propagation G v :=
  relaxIterate_le G 5 (riskInit G) v

/-- C4: within one Monte Carlo trial, after the per-node draws the outcome
is exactly 3 OR-propagation cascade passes over the full edge enumeration;
a node drawn failed stays failed; and two graphs with the same edge list
and the same risk scores (but arbitrary dependency_weight /
inventory_buffer, hence arbitrary edge weights) produce identical trial
outcomes. -/
theorem mc_trial_cascade_properties (G G' : RiskGraph) (rand : String → ℚ)
    (hE : G.edges = G'.edges)
    (hR : ∀ n, (G.attrs n).risk_score = (G'.attrs n).risk_score) :
    mcTrial G rand = cascadePasses G.edges (localDraw G rand)
      ∧ (∀ x, localDraw G rand x = true → mcTrial G rand x = true)
      ∧ mcTrial G rand = mcTrial G' rand := by
  refine ⟨rfl, ?_, ?_⟩
  · intro x hx
    exact cascadePasses_mono G.edges (localDraw G rand) x hx
  · have hdraw : localDraw G rand = localDraw G' rand := by
      funext n
      unfold localDraw failure_prob_local
      rw [hR n]
    unfold mcTrial
    rw [hE, hdraw]

/-- C4 witness: concrete graphs differing only in dependency_weight and
inventory_buffer give identical trial outcomes, and the drawn-failed node A
remains failed. -/
theorem mc_trial_cascade_properties_witness :
    mcTrial G_cascadeW (fun _ => 0) "A" = true
      ∧ mcTrial G_cascadeW (fun _ => 0) = mcTrial G_cascadeW' (fun _ => 0) :=
  ⟨(mc_trial_cascade_properties G_cascadeW G_cascadeW' (fun _ => 0) rfl (fun _ => rfl)).2.1
      "A" (by decide),
   (mc_trial_cascade_properties G_cascadeW G_cascadeW' (fun _ => 0) rfl (fun _ => rfl)).2.2⟩

/-- C5 (code bug): the simulator does not reject non-positive iteration
counts.  With iterations = -5 on a one-node graph it returns a normal
result (zero trials, all probabilities 0), and with iterations = 0 it
raises an unhandled ZeroDivisionError (modelled `none`) instead of an
explicit validation failure. -/
theorem mc_nonpositive_iterations_not_rejected :
    monte_carlo_disruption_simulation G_oneNode (-5) (fun _ _ => 1) =
        some { iterations := -5
               local_failure_probabilities := [("A", 1/50)]
               disruption_probability_by_node := [("A", 0)]
               final_product_disruption_prob := 0 }
      ∧ monte_carlo_disruption_simulation G_oneNode 0 (fun _ _ => 1) = none := by
  decide

/-- C6: `resolve_entity` is the identity on each of the five canonical
names in the alias table's value set. -/
theorem resolve_entity_idempotent_on_canonicals :
    resolve_entity (pystr "Foxconn Facility No. 3") = pystr "Foxconn Facility No. 3"
      ∧ resolve_entity (pystr "Sunrise Textiles") = pystr "Sunrise Textiles"
      ∧ resolve_entity (pystr "Brand A Distribution Center") = pystr "Brand A Distribution Center"
      ∧ resolve_entity (pystr "OEKO-TEX") = pystr "OEKO-TEX"
      ∧ resolve_entity (pystr "Vietnam") = pystr "Vietnam" := by
  decide

/-- C7: the extraction scenario — relation kind SUPPLIES from the trigger
table, target resolved to the canonical "Sunrise Textiles", and material
"100% cotton yarn", the span between the verb and the keyword "to". -/
theorem extract_relations_supplies_scenario :
    extract_relations (pystr "Supplies 100% cotton yarn to Sunrise Textiles") =
      some (pystr "SUPPLIES", pystr "Sunrise Textiles", pystr "100% cotton yarn") := by
  decide

/-- C8: for every input string, `resolve_entity` returns either a canonical
value of the alias table or the trimmed input itself; the result is never
empty and is its own trim (leading/trailing whitespace removed).  The
function is total, so no error path exists. -/
theorem resolve_entity_never_fails (name : List Char) :
    (resolve_entity name ∈ canonical_names ∨ resolve_entity name = pyStrip name)
      ∧ resolve_entity name ≠ []
      ∧ pyStrip (resolve_entity name) = resolve_entity name := by
  cases hfind : SIMILARITY_MAP.find?
      (fun p => pyStrip name == p.1 || pyIn (_preprocess_name name) (_preprocess_name p.1)) with
  | some p =>
    have hre : resolve_entity name = p.2 := by
      simp only [resolve_entity]
      rw [hfind]
    have hmem := List.mem_of_find?_eq_some hfind
    rw [hre]
    fin_cases hmem <;> exact ⟨Or.inl (by decide), by decide, by decide⟩
  | none =>
    cases hg : get_close_match1 (pyStrip name) canonical_names with
    | some m =>
      have hre : resolve_entity name = m := by
        simp only [resolve_entity]
        rw [hfind, hg]
      have hmem := get_close_match1_mem _ _ _ hg
      rw [hre]
      fin_cases hmem <;> exact ⟨Or.inl (by decide), by decide, by decide⟩
    | none =>
      have hre : resolve_entity name = pyStrip name := by
        simp only [resolve_entity]
        rw [hfind, hg]
      rw [hre]
      refine ⟨Or.inr rfl, ?_, pyStrip_idempotent name⟩
      intro hnil
      have hpre := preprocess_nil_of_strip_nil name hnil
      have hpred := List.find?_eq_none.mp hfind
        (pystr "Fxncn 3", pystr "Foxconn Facility No. 3") (by decide)
      rw [hpre] at hpred
      rw [show pyIn ([] : List Char) (_preprocess_name (pystr "Fxncn 3")) = true from by decide,
        Bool.or_true] at hpred
      exact hpred rfl

/-- C9: a record whose facility_name and facility_key are both absent or
falsy (empty) leaves the assembled graph unchanged, even when it carries
relation text that would extract a relation. -/
theorem build_graph_ignores_subjectless_records (rs1 rs2 : List RawRecord) (r : RawRecord)
    (h1 : truthyStr r.facility_name = false) (h2 : truthyStr r.facility_key = false) :
    build_graph (rs1 ++ r :: rs2) = build_graph (rs1 ++ rs2) := by
  unfold build_graph
  rw [List.foldl_append, List.foldl_append, List.foldl_cons,
    processItem_no_subject _ r h1 h2]

/-- C9 witness: a record with an empty facility_key and extractable relation
text is a no-op within a build. -/
theorem build_graph_ignores_subjectless_records_witness :
    build_graph ([] ++ rNoSubject :: []) = build_graph ([] ++ []) :=
  build_graph_ignores_subjectless_records [] [] rNoSubject (by decide) (by decide)

/-- C10: any input whose preprocessed form is empty resolves to
"Foxconn Facility No. 3", the canonical of the first alias-table entry,
because the empty string is a substring of every preprocessed alias; the
trimmed-input fallback is unreachable for such inputs. -/
theorem resolve_entity_empty_preprocessed (name : List Char)
    (h : _preprocess_name name = []) :
    resolve_entity name = pystr "Foxconn Facility No. 3" := by
  have hfind : SIMILARITY_MAP.find?
      (fun p => pyStrip name == p.1 || pyIn (_preprocess_name name) (_preprocess_name p.1)) =
      some (pystr "Fxncn 3", pystr "Foxconn Facility No. 3") := by
    have hpred : (pyStrip name == pystr "Fxncn 3"
        || pyIn (_preprocess_name name) (_preprocess_name (pystr "Fxncn 3"))) = true := by
      rw [h,
        show pyIn ([] : List Char) (_preprocess_name (pystr "Fxncn 3")) = true from by decide,
        Bool.or_true]
    simp only [SIMILARITY_MAP]
    rw [List.find?_cons_of_pos]
    exact hpred
  simp only [resolve_entity]
  rw [hfind]

/-- C10 witness: the punctuation-and-whitespace-only name " .! "
preprocesses to the empty string and resolves to the first canonical. -/
theorem resolve_entity_empty_preprocessed_witness :
    _preprocess_name (pystr " .! ") = []
      ∧ resolve_entity (pystr " .! ") = pystr "Foxconn Facility No. 3" :=
  ⟨by decide, resolve_entity_empty_preprocessed (pystr " .! ") (by decide)⟩

/-! ## Additional spec scenarios (§8 of the specification) -/

/-- Resolution scenario: "Fxncn 3" and "FCN3" are distinct alias entries
with the same canonical target. -/
theorem resolve_entity_alias_scenarios :
    resolve_entity (pystr "Fxncn 3") = pystr "Foxconn Facility No. 3"
      ∧ resolve_entity (pystr "FCN3") = pystr "Foxconn Facility No. 3" := by
  decide

/-- Non-edge text scenario: "Final product assembly." yields no relation. -/
theorem extract_relations_non_edge_scenario :
    extract_relations (pystr "Final product assembly.") = none := by
  decide
